import Mathlib

/-!
Verification development for the LinkedIn Easy Apply bot (`src/bot.py`).

The Python source is shallowly embedded: pure helpers become Lean
functions, the browser is an explicit environment value describing what
each page query would return, and the stateful session loop is explicit
state passing.  All definitions are translated from the source file
`src/bot.py`; section comments cite the Python method each definition
embeds.
-/

namespace LinkedInBot

/-! ## String helpers modeling Python `str` operations -/

/-- Model of Python list-prefix testing used by substring search. -/
def startsWithL : List Char → List Char → Bool
  | [], _ => true
  | _ :: _, [] => false
  | c :: cs, d :: ds => c == d && startsWithL cs ds

/-- Auxiliary scan for `containsSub`. -/
def containsAux (needle : List Char) : List Char → Bool
  | [] => startsWithL needle []
  | c :: rest => startsWithL needle (c :: rest) || containsAux needle rest

/-- Model of the Python expression `needle in hay` on strings:
`containsSub hay needle` is true when `needle` occurs as a contiguous
substring of `hay` (the empty needle always matches, as in Python). -/
def containsSub (hay needle : String) : Bool :=
  containsAux needle.data hay.data

/-- Model of Python `str.lower()` (the questions handled by the bot are
ASCII, where `Char.toLower` agrees with Python). -/
def lowerStr (s : String) : String :=
  String.mk (s.data.map Char.toLower)

/-- Fuel-driven splitter on character lists; fuel is consumed one
character per step, so `length + 1` fuel always suffices. -/
def splitGo (sep : List Char) : Nat → List Char → List Char → List (List Char)
  | _, [], acc => [acc.reverse]
  | 0, hay, acc => [acc.reverse ++ hay]
  | fuel + 1, c :: rest, acc =>
    if sep.length > 0 && startsWithL sep (c :: rest) then
      acc.reverse :: splitGo sep fuel (List.drop sep.length (c :: rest)) []
    else
      splitGo sep fuel rest (c :: acc)

/-- Model of Python `s.split(sep)` for a non-empty separator. -/
def pySplit (s sep : String) : List String :=
  (splitGo sep.data (s.data.length + 1) s.data []).map String.mk

/-- Model of Python truthiness for an optional string: `None` and the
empty string are falsy, everything else truthy. -/
def pyTruthy : Option String → Bool
  | none => false
  | some s => s ≠ ""

/-- Value of an optional string, empty when absent. -/
def optStr : Option String → String
  | none => ""
  | some s => s

/-- Python `str(bool)` as written by the `csv` module. -/
def pyBoolStr : Bool → String
  | true => "True"
  | false => "False"

/-! ## Timestamps

`_record_application` writes `datetime.now().strftime("%Y-%m-%d %H:%M:%S")`
and `_load_applied_jobs` parses the same format with
`pd.to_datetime(..., format="%Y-%m-%d %H:%M:%S")`.  A timestamp is modeled
as a calendar tuple; comparison uses a strictly monotone numeric encoding
of the lexicographic (year, month, day, hour, minute, second) order, which
agrees with `datetime` comparison on in-range values. -/

structure DT where
  year : Nat
  month : Nat
  day : Nat
  hour : Nat
  minute : Nat
  second : Nat
deriving DecidableEq

/-- Monotone encoding of the calendar order. -/
def DT.enc (t : DT) : Nat :=
  ((((t.year * 13 + t.month) * 32 + t.day) * 24 + t.hour) * 60 + t.minute) * 60 + t.second

/-- Model of `datetime` strict comparison `a < b`. -/
def dtLt (a b : DT) : Bool :=
  a.enc < b.enc

/-- Two-digit zero padding, as produced by `strftime` fields. -/
def pad2 (n : Nat) : String :=
  if n < 10 then "0" ++ toString n else toString n

/-- Four-digit zero padding for the year field. -/
def pad4 (n : Nat) : String :=
  if n < 10 then "000" ++ toString n
  else if n < 100 then "00" ++ toString n
  else if n < 1000 then "0" ++ toString n
  else toString n

/-- Model of `strftime("%Y-%m-%d %H:%M:%S")`. -/
def fmtDT (t : DT) : String :=
  pad4 t.year ++ "-" ++ pad2 t.month ++ "-" ++ pad2 t.day ++ " " ++
    pad2 t.hour ++ ":" ++ pad2 t.minute ++ ":" ++ pad2 t.second

/-- Numeric value of two decimal digit characters. -/
def d2 (a b : Char) : Nat :=
  (a.toNat - 48) * 10 + (b.toNat - 48)

/-- Numeric value of four decimal digit characters. -/
def d4 (a b c d : Char) : Nat :=
  d2 a b * 100 + d2 c d

/-- Gregorian month lengths, as validated by `datetime`. -/
def daysInMonth (year month : Nat) : Nat :=
  if month == 2 then
    if year % 4 == 0 && (year % 100 != 0 || year % 400 == 0) then 29 else 28
  else if month == 4 || month == 6 || month == 9 || month == 11 then 30
  else 31

/-- Range validation performed by `datetime` construction. -/
def validDT (t : DT) : Bool :=
  1 ≤ t.month && t.month ≤ 12 && 1 ≤ t.day && t.day ≤ daysInMonth t.year t.month &&
    t.hour ≤ 23 && t.minute ≤ 59 && t.second ≤ 59

/-- Model of parsing one value with
`pd.to_datetime(..., format="%Y-%m-%d %H:%M:%S")`: `none` models the
`ValueError` raised on a value that does not match the format. -/
def parseTS (s : String) : Option DT :=
  match s.data with
  | [y1, y2, y3, y4, h1, m1, m2, h2, dd1, dd2, sp, hh1, hh2, c1, mi1, mi2, c2, s1, s2] =>
    if ([y1, y2, y3, y4, m1, m2, dd1, dd2, hh1, hh2, mi1, mi2, s1, s2].all Char.isDigit)
        && h1 == '-' && h2 == '-' && sp == ' ' && c1 == ':' && c2 == ':' then
      let t : DT := ⟨d4 y1 y2 y3 y4, d2 m1 m2, d2 dd1 dd2, d2 hh1 hh2, d2 mi1 mi2, d2 s1 s2⟩
      if validDT t then some t else none
    else none
  | _ => none

/-! ## History Store

`ApplicationRecord` is the row written by `_record_application`
(src/bot.py lines 579-611).  The output file is modeled as an optional
list of rows of fields: `none` is an absent file, and each row is the
list of fields of one CSV line (field quoting is handled by the `csv`
module and is not relevant to any claim, so rows are kept structured). -/

structure AppRecord where
  ts : DT
  jobId : String
  jobTitle : String
  company : String
  attempted : Bool
  result : String
  url : String
deriving DecidableEq

/-- Header line written by `csv.DictWriter.writeheader` in
`_record_application` when the output file does not exist yet. -/
def historyHeader : List String :=
  ["timestamp", "job_id", "job_title", "company", "attempted", "result", "url"]

/-- Serialization of a record in `fieldnames` order, as written by
`csv.DictWriter.writerow`. -/
def serializeRec (r : AppRecord) : List String :=
  [fmtDT r.ts, r.jobId, r.jobTitle, r.company, pyBoolStr r.attempted, r.result, r.url]

/-- Job title extracted by `_record_application` from the page title:
the part before the first separator, and the literal string `Unknown`
when the page title has no separator. -/
def recordJobTitle (pageTitle : String) : String :=
  if containsSub pageTitle " | " then (pySplit pageTitle " | ").headD "Unknown" else "Unknown"

/-- Company extracted by `_record_application` from the page title. -/
def recordCompany (pageTitle : String) : String :=
  if containsSub pageTitle " | " && (pySplit pageTitle " | ").length > 1 then
    (pySplit pageTitle " | ").getD 1 "Unknown"
  else "Unknown"

/-- Record built by `_record_application` for one attempt. -/
def mkRecord (pageTitle url : String) (ts : DT) (jobId : String)
    (attempted : Bool) (result : String) : AppRecord :=
  { ts := ts, jobId := jobId, jobTitle := recordJobTitle pageTitle,
    company := recordCompany pageTitle, attempted := attempted,
    result := result, url := url }

/-- File append performed by `_record_application`: when the file does
not exist a header line is written first, then the data row; otherwise
the data row is appended. -/
def appendRecord (file : Option (List (List String))) (r : AppRecord) : List (List String) :=
  match file with
  | none => [historyHeader, serializeRec r]
  | some rows => rows ++ [serializeRec r]

/-- Model of reading one line in `_load_applied_jobs`.  The call is
`pd.read_csv(..., header=None, names=[timestamp, job_id, job, company,
attempted, result])` with six names.  With `header=None` every line of
the file, including a previously written header line, is data.  When a
line has more fields than names, pandas uses the extra leading field as
the index, so the `timestamp` column is populated from the second field
of the line and the `job_id` column from the third; with exactly six
fields they come from the first and second fields.  The timestamp field
is then parsed; `none` models the exception raised by `to_datetime`. -/
def parseHistoryRow (r : List String) : Option (DT × String) :=
  if r.length == 7 then
    match parseTS (r.getD 1 "") with
    | some t => some (t, r.getD 2 "")
    | none => none
  else if r.length == 6 then
    match parseTS (r.getD 0 "") with
    | some t => some (t, r.getD 1 "")
    | none => none
  else none

/-- Parse every line; any failure models the exception that the
surrounding `except` clause of `_load_applied_jobs` turns into `[]`. -/
def parseHistoryRows : List (List String) → Option (List (DT × String))
  | [] => some []
  | r :: rest =>
    match parseHistoryRow r, parseHistoryRows rest with
    | some p, some ps => some (p :: ps)
    | _, _ => none

/-- First-occurrence deduplication, the order produced by
`pandas.Series.unique`. -/
def uniqFirst : List String → List String → List String
  | [], _ => []
  | x :: xs, seen => if x ∈ seen then uniqFirst xs seen else x :: uniqFirst xs (x :: seen)

/-- Model of `_load_applied_jobs` (src/bot.py lines 159-177).  The
`cutoff` argument stands for the value `datetime.now() - timedelta(days=2)`
computed inside the method; rows with timestamp strictly after the cutoff
survive the recency filter.  A missing file or any parse failure is
caught by the `except` clause and yields the empty list. -/
def loadAppliedJobs (file : Option (List (List String))) (cutoff : DT) : List String :=
  match file with
  | none => []
  | some rows =>
    match parseHistoryRows rows with
    | none => []
    | some recs => uniqFirst ((recs.filter (fun p => dtLt cutoff p.1)).map (fun p => p.2)) []

/-! ## Configuration

Constructor arguments of `LinkedInEasyApplyBot` consumed by the embedded
methods.  The `uploads` dictionary is represented by presence flags for
its two keys `resume` and `cover_letter`, the only keys the code reads. -/

structure Config where
  phoneNumber : String
  salary : Option String
  rate : Option String
  hasResumeUpload : Bool
  hasCoverUpload : Bool
  blacklist : List String
  blacklistTitles : List String
  maxApplications : Nat

/-! ## Knowledge Store and Answer Resolver

`self.answers` is a Python dict; iteration order is insertion order, so
it is modeled as an association list where insertion updates an existing
key in place or appends a fresh key at the end. -/

/-- Model of `self.answers[question] = answer` on a Python dict. -/
def dictInsert : List (String × String) → String → String → List (String × String)
  | [], k, v => [(k, v)]
  | (k₀, v₀) :: rest, k, v =>
    if k₀ = k then (k, v) :: rest else (k₀, v₀) :: dictInsert rest k v

/-- First stored record scan of `_get_answer` (src/bot.py lines 434-436):
returns the answer of the first stored question whose lowercased text is
a substring of the (already lowercased) live question text. -/
def firstStored (answers : List (String × String)) (question : String) : Option String :=
  match answers with
  | [] => none
  | (q, a) :: rest =>
    if containsSub question (lowerStr q) then some a else firstStored rest question

/-- Heuristic rule table of `_get_answer` (src/bot.py lines 439-456),
an ordered `elif` chain over substring tests on the lowercased question. -/
def heuristic (cfg : Config) (question : String) : Option String :=
  if containsSub question "how many years" || containsSub question "years of experience" then
    some "3"
  else if containsSub question "sponsor" || containsSub question "visa" then
    some "No"
  else if ["do you ", "have you ", "are you ", "can you "].any (fun x => containsSub question x) then
    some "Yes"
  else if containsSub question "us citizen" || containsSub question "authorized"
      || containsSub question "legal right" then
    some "Yes"
  else if containsSub question "salary" || containsSub question "compensation" then
    some (if pyTruthy cfg.salary && pyTruthy cfg.rate then
      optStr cfg.salary ++ " " ++ optStr cfg.rate else "Negotiable")
  else if ["gender", "race", "lgbtq", "ethnicity", "nationality"].any
      (fun x => containsSub question x) then
    some "Prefer not to say"
  else if containsSub question "education" || containsSub question "degree" then
    some "Bachelor\x27s degree"
  else if containsSub question "when can you start" || containsSub question "start date" then
    some "Immediately"
  else if containsSub question "willing to relocate" then
    some "Yes"
  else none

/-- Model of `_get_answer` plus the `_store_new_question` fallback
(src/bot.py lines 431-486).  Returns the resolved answer (`none` models
the Python `None` return for an unresolved question), the updated
in-memory answer store, and the rows appended to the persisted
knowledge file `qa.csv` by this call.  `_store_new_question` records the
fixed placeholder answer `Yes` both in memory and in the file; the
header line it writes when `qa.csv` does not exist yet carries no
record and is not part of the row list. -/
def getAnswer (cfg : Config) (answers : List (String × String)) (question : String) :
    Option String × List (String × String) × List (String × String) :=
  match firstStored answers question with
  | some a => (some a, answers, [])
  | none =>
    match heuristic cfg question with
    | some a => (some a, answers, [])
    | none => (none, dictInsert answers question "Yes", [(question, "Yes")])

/-! ## Form sections and question processing -/

/-- One `jobs-easy-apply-form-section__grouping` element: its visible
text, the values of its radio inputs, and whether it contains a free
text input or a multi-entry component. -/
structure Section where
  text : String
  radioValues : List String
  hasTextInput : Bool
  hasMulti : Bool
deriving DecidableEq

/-- Input performed for one answered section. -/
inductive FieldAct where
  | radio (a : String)
  | typeText (a : String)
  | multi (a : String)
deriving DecidableEq

/-- Input chosen by `_process_questions` for a section once an answer is
available (src/bot.py lines 399-424): a radio button whose value equals
the answer, else the first free text input, else the multi-entry
component, else nothing. -/
def answerField (sec : Section) (a : String) : Option FieldAct :=
  if a ∈ sec.radioValues then some (FieldAct.radio a)
  else if sec.hasTextInput then some (FieldAct.typeText a)
  else if sec.hasMulti then some (FieldAct.multi a)
  else none

/-- Model of `_process_questions` (src/bot.py lines 386-429): walks the
form sections in order, lowercases each section text, resolves it with
`_get_answer` (mutating the answer store), and enters the resolved
answer; an unresolved question (answer `None`) is skipped with no input
entered.  Returns the final store, the rows appended to `qa.csv`, and
the per-section action taken. -/
def processQuestions (cfg : Config) (answers : List (String × String)) :
    List Section → List (String × String) × List (String × String) × List (Section × Option FieldAct)
  | [] => (answers, [], [])
  | sec :: rest =>
    let g := getAnswer cfg answers (lowerStr sec.text)
    let tail := processQuestions cfg g.2.1 rest
    (tail.1, g.2.2 ++ tail.2.1, (sec, g.1.bind (answerField sec)) :: tail.2.2)

/-! ## Form-Step Driver

The browser page, as seen by one iteration of the `_submit_application`
loop, is a record of what each element query would find and whether each
attempted click would succeed.  The whole form flow of one job is an
`ApplyEnv`; `steps i` is the page state seen by iteration `i` of the
loop.  The driver emits an event trace recording, in order, the side
effects it performs. -/

structure StepPage where
  submitPresent : Bool
  submitClickOk : Bool
  nextPresent : Bool
  nextClickOk : Bool
  reviewPresent : Bool
  reviewClickOk : Bool
  resumeUploadOk : Bool
  coverUploadOk : Bool
  errorPresent : Bool
  sections : List Section

/-- Side effects performed by the driver, in order. -/
inductive Ev where
  | iterStart
  | fillPhone
  | processQuestions
  | clickSubmit
  | submitFail
  | clickNext
  | nextFail
  | clickReview
  | reviewFail
  | upload
  | errorDetected
deriving DecidableEq

/-- Model of `_handle_file_uploads` (src/bot.py lines 538-554): true
when a configured upload key exists and its upload element was found and
accepted the file. -/
def uploadsHandled (cfg : Config) (st : StepPage) : Bool :=
  (cfg.hasResumeUpload && st.resumeUploadOk) || (cfg.hasCoverUpload && st.coverUploadOk)

/-- Result of the `_submit_application` loop together with the state it
threads: the Boolean return value, the answer store after any
`_process_questions` reruns, the `qa.csv` rows appended, and the event
trace. -/
structure SubmitRes where
  success : Bool
  answers : List (String × String)
  qaRows : List (String × String)
  events : List Ev
deriving DecidableEq

/-- Events of a failed next click or an attempted review click in one
iteration: when the next control is present but its click failed only
that failure is recorded; otherwise a present review control is
clicked, successfully or not (src/bot.py lines 512-525). -/
def failClickEvs (st : StepPage) : List Ev :=
  if st.nextPresent then [Ev.nextFail]
  else if st.reviewPresent then
    if st.reviewClickOk then [Ev.clickReview] else [Ev.reviewFail]
  else []

/-- One-iteration-at-a-time model of the `while attempts < max_attempts`
loop of `_submit_application` (src/bot.py lines 488-536).  `fuel` is the
remaining iteration budget and `i` the index of the current iteration.
Per iteration: a present submit control is clicked, success returning
`True` and a click failure consuming the iteration (`continue`); else a
present next control is clicked (on click failure control falls through);
else a present review control is clicked likewise; then file uploads are
tried, then the error indicator, whose presence reruns
`_process_questions` on the current sections; a fully unproductive
iteration still consumes budget.  Exhausted budget returns `False`. -/
def submitGo (cfg : Config) (env : Nat → StepPage) (answers : List (String × String)) :
    Nat → Nat → SubmitRes
  | _, 0 => ⟨false, answers, [], []⟩
  | i, fuel + 1 =>
    let st := env i
    if st.submitPresent then
      if st.submitClickOk then
        ⟨true, answers, [], [Ev.iterStart, Ev.clickSubmit]⟩
      else
        let r := submitGo cfg env answers (i + 1) fuel
        ⟨r.success, r.answers, r.qaRows, Ev.iterStart :: Ev.submitFail :: r.events⟩
    else if st.nextPresent && st.nextClickOk then
      let r := submitGo cfg env answers (i + 1) fuel
      ⟨r.success, r.answers, r.qaRows, Ev.iterStart :: Ev.clickNext :: r.events⟩
    else if !st.nextPresent && st.reviewPresent && st.reviewClickOk then
      let r := submitGo cfg env answers (i + 1) fuel
      ⟨r.success, r.answers, r.qaRows, Ev.iterStart :: failClickEvs st ++ r.events⟩
    else if uploadsHandled cfg st then
      let r := submitGo cfg env answers (i + 1) fuel
      ⟨r.success, r.answers, r.qaRows, Ev.iterStart :: failClickEvs st ++ [Ev.upload] ++ r.events⟩
    else if st.errorPresent then
      let pr := processQuestions cfg answers st.sections
      let r := submitGo cfg env pr.1 (i + 1) fuel
      ⟨r.success, r.answers, pr.2.1 ++ r.qaRows,
        Ev.iterStart :: failClickEvs st ++ [Ev.errorDetected, Ev.processQuestions] ++ r.events⟩
    else
      let r := submitGo cfg env answers (i + 1) fuel
      ⟨r.success, r.answers, r.qaRows, Ev.iterStart :: failClickEvs st ++ r.events⟩

/-- Iteration budget hardcoded as `max_attempts = 5`. -/
def maxAttempts : Nat := 5

/-- Model of `_submit_application` itself. -/
def submitApplication (cfg : Config) (env : Nat → StepPage)
    (answers : List (String × String)) : SubmitRes :=
  submitGo cfg env answers 0 maxAttempts

/-- Model of `_fill_application_form` (src/bot.py lines 369-384): types
the phone number into every section whose text mentions the phone field,
then runs `_process_questions` once. -/
def fillForm (cfg : Config) (answers : List (String × String)) (sections : List Section) :
    List (String × String) × List (String × String) × List Ev :=
  let phoneEvs := (sections.filter
    (fun s => containsSub s.text "Mobile phone number")).map (fun _ => Ev.fillPhone)
  let pr := processQuestions cfg answers sections
  (pr.1, pr.2.1, phoneEvs ++ [Ev.processQuestions])

/-! ## apply_to_job -/

/-- Environment of one `apply_to_job` call: the data the browser returns
for the job page.  `formExc` is `some msg` when the body of the
`try` block around form filling and submission raises an exception with
message `msg`. -/
structure ApplyEnv where
  pageTitle : String
  url : String
  easyApplyPresent : Bool
  easyApplyClickOk : Bool
  formExc : Option String
  sections : List Section
  steps : Nat → StepPage

/-- Result of one `apply_to_job` call: the Boolean return value, the
records passed to `_record_application`, the final answer store, the
`qa.csv` rows appended, and the event trace of the form phase. -/
structure ApplyRes where
  success : Bool
  records : List AppRecord
  answers : List (String × String)
  qaRows : List (String × String)
  events : List Ev

/-- Job title used by the blacklist check in `apply_to_job` (src/bot.py
line 311): the part of the page title before the first separator, or
the whole page title when there is no separator. -/
def applyTitle (pageTitle : String) : String :=
  if containsSub pageTitle " | " then (pySplit pageTitle " | ").headD pageTitle else pageTitle

/-- Blacklisted-title test of `apply_to_job` (src/bot.py line 312). -/
def titleBlacklisted (cfg : Config) (pageTitle : String) : Bool :=
  cfg.blacklistTitles.any (fun t => containsSub (lowerStr (applyTitle pageTitle)) (lowerStr t))

/-- Model of `apply_to_job` (src/bot.py lines 302-355).  Terminal
outcomes, in source order: blacklisted title, missing Easy Apply
control, Easy Apply click failure, exception during form handling,
submission success, submission failure.  Every branch records exactly
one application outcome before returning. -/
def applyToJob (cfg : Config) (env : ApplyEnv) (answers : List (String × String))
    (ts : DT) (jobId : String) : ApplyRes :=
  if titleBlacklisted cfg env.pageTitle then
    ⟨false, [mkRecord env.pageTitle env.url ts jobId false "Blacklisted title"], answers, [], []⟩
  else if !env.easyApplyPresent then
    ⟨false, [mkRecord env.pageTitle env.url ts jobId false "No Easy Apply"], answers, [], []⟩
  else if !env.easyApplyClickOk then
    ⟨false, [mkRecord env.pageTitle env.url ts jobId false "Easy Apply click failed"],
      answers, [], []⟩
  else
    match env.formExc with
    | some msg =>
      ⟨false, [mkRecord env.pageTitle env.url ts jobId false ("Error: " ++ msg)], answers, [], []⟩
    | none =>
      let f := fillForm cfg answers env.sections
      let r := submitApplication cfg env.steps f.1
      if r.success then
        ⟨true, [mkRecord env.pageTitle env.url ts jobId true "Applied"],
          r.answers, f.2.1 ++ r.qaRows, f.2.2 ++ r.events⟩
      else
        ⟨false, [mkRecord env.pageTitle env.url ts jobId false "Submission failed"],
          r.answers, f.2.1 ++ r.qaRows, f.2.2 ++ r.events⟩

/-! ## Session loop

`process_job_listings` (src/bot.py lines 262-300) first builds the
`job_ids` dict from the visible cards, then iterates over it, applying
to each job not yet in `self.applied_job_ids` while the session cap
allows.  The `apply_to_job` call is abstracted by an outcome oracle
`outcome : String → Bool` giving its Boolean return value per job. -/

/-- One job card of the search results list. -/
structure Card where
  text : String
  dataJobId : Option String

/-- Dict insertion for the `job_ids` dict: value update in place, fresh
keys appended. -/
def jobDictInsert : List (String × String) → String → String → List (String × String)
  | [], k, v => [(k, v)]
  | (k₀, v₀) :: rest, k, v =>
    if k₀ = k then (k, v) :: rest else (k₀, v₀) :: jobDictInsert rest k v

/-- Card filter of `process_job_listings` (src/bot.py lines 270-284):
skip cards already marked applied by the site, cards matching a
blacklisted company substring, and cards with a falsy or sentinel
`data-job-id`; the rest populate the `job_ids` dict. -/
def collectJobIds (cfg : Config) : List Card → List (String × String) → List (String × String)
  | [], acc => acc
  | card :: rest, acc =>
    if containsSub card.text "Applied" then collectJobIds cfg rest acc
    else if cfg.blacklist.any (fun company => containsSub card.text company) then
      collectJobIds cfg rest acc
    else
      match card.dataJobId with
      | some jid =>
        if jid ≠ "" && jid ≠ "search" then collectJobIds cfg rest (jobDictInsert acc jid card.text)
        else collectJobIds cfg rest acc
      | none => collectJobIds cfg rest acc

/-- Session counters threaded through the loop: the number of
applications submitted in this session and the in-memory list of applied
job ids. -/
structure SessState where
  count : Nat
  appliedIds : List String
deriving DecidableEq

/-- The apply loop of `process_job_listings` (src/bot.py lines 288-298):
for each collected job, stop the whole scan once the session cap is
reached; skip jobs already in `applied_job_ids`; otherwise call
`apply_to_job`, and only on a `True` return append the id and bump the
counter.  The third component is the list of job ids that actually
entered `apply_to_job`, in order. -/
def applyLoop (maxApps : Nat) (outcome : String → Bool) :
    List (String × String) → SessState → SessState × List String
  | [], s => (s, [])
  | (jobId, _) :: rest, s =>
    if maxApps ≤ s.count then (s, [])
    else if jobId ∈ s.appliedIds then applyLoop maxApps outcome rest s
    else
      let s₁ : SessState :=
        if outcome jobId then ⟨s.count + 1, s.appliedIds ++ [jobId]⟩ else s
      let r := applyLoop maxApps outcome rest s₁
      (r.1, jobId :: r.2)

/-- The batch loop of `run` (src/bot.py lines 613-639): the nested
position, location and page loops produce a sequence of
`process_job_listings` calls, each preceded by a `count >= max` check
that breaks out once the cap is reached (the check repeats for every
remaining batch, so no later batch runs either). -/
def runBatches (maxApps : Nat) (outcome : String → Bool) :
    List (List (String × String)) → SessState → SessState × List String
  | [], s => (s, [])
  | batch :: rest, s =>
    if maxApps ≤ s.count then (s, [])
    else
      let r₁ := applyLoop maxApps outcome batch s
      let r₂ := runBatches maxApps outcome rest r₁.1
      (r₂.1, r₁.2 ++ r₂.2)

/-! ## Trace checkers used to state C3 and C4 -/

/-- Number of loop iterations recorded in a trace. -/
def iterCount : List Ev → Nat
  | [] => 0
  | Ev.iterStart :: rest => iterCount rest + 1
  | _ :: rest => iterCount rest

/-- Formalization of the claim that within each iteration of the form
loop the fields are filled before a next control is clicked: scanning
the trace, the filled flag is reset at each iteration start, set by a
question-processing event, and must be set whenever a next click
occurs. -/
def fillBeforeNext : List Ev → Bool → Bool
  | [], _ => true
  | Ev.iterStart :: rest, _ => fillBeforeNext rest false
  | Ev.processQuestions :: rest, _ => fillBeforeNext rest true
  | Ev.clickNext :: rest, filled => filled && fillBeforeNext rest filled
  | _ :: rest, filled => fillBeforeNext rest filled

/-- Checker for the amended behavior: every question-processing event in
a loop trace immediately follows an error-detection event. -/
def pqOnlyAfterErr : List Ev → Bool
  | [] => true
  | Ev.processQuestions :: _ => false
  | Ev.errorDetected :: Ev.processQuestions :: rest => pqOnlyAfterErr rest
  | _ :: rest => pqOnlyAfterErr rest

/-! ## Helper lemmas about the form loop -/

theorem iterCount_append (a b : List Ev) : iterCount (a ++ b) = iterCount a + iterCount b := by
  induction a with
  | nil => simp [iterCount]
  | cons x rest ih => cases x <;> (simp [iterCount, ih]; try omega)

theorem iterCount_failClickEvs (st : StepPage) : iterCount (failClickEvs st) = 0 := by
  rcases st with ⟨sp, so, np, no, rp, ro, ru, cu, ep, secs⟩
  cases np <;> cases rp <;> cases ro <;> simp [failClickEvs, iterCount]

theorem submitGo_iterCount (cfg : Config) (env : Nat → StepPage) :
    ∀ (fuel i : Nat) (answers : List (String × String)),
      iterCount (submitGo cfg env answers i fuel).events ≤ fuel := by
  intro fuel
  induction fuel with
  | zero => intro i answers; simp [submitGo, iterCount]
  | succ n ih =>
    intro i answers
    simp only [submitGo]
    split
    · split
      · simp [iterCount]
      · have := ih (i + 1) answers
        simp only [iterCount]
        omega
    · split
      · have := ih (i + 1) answers
        simp only [iterCount]
        omega
      · split
        · have h1 := ih (i + 1) answers
          have h2 := iterCount_failClickEvs (env i)
          simp only [iterCount, List.append_eq, iterCount_append, h2]
          omega
        · split
          · have h1 := ih (i + 1) answers
            have h2 := iterCount_failClickEvs (env i)
            simp only [iterCount, List.append_eq, iterCount_append, h2]
            omega
          · split
            · have h1 := ih (i + 1) (processQuestions cfg answers (env i).sections).1
              have h2 := iterCount_failClickEvs (env i)
              simp only [iterCount, List.append_eq, iterCount_append, h2]
              omega
            · have h1 := ih (i + 1) answers
              have h2 := iterCount_failClickEvs (env i)
              simp only [iterCount, List.append_eq, iterCount_append, h2]
              omega

theorem submitGo_success_false (cfg : Config) (env : Nat → StepPage)
    (h : ∀ j, ¬((env j).submitPresent = true ∧ (env j).submitClickOk = true)) :
    ∀ (fuel i : Nat) (answers : List (String × String)),
      (submitGo cfg env answers i fuel).success = false := by
  intro fuel
  induction fuel with
  | zero => intro i answers; rfl
  | succ n ih =>
    intro i answers
    simp only [submitGo]
    split
    · split
      · rename_i hsp hok
        exact absurd ⟨hsp, hok⟩ (h i)
      · exact ih (i + 1) answers
    · split
      · exact ih (i + 1) answers
      · split
        · exact ih (i + 1) answers
        · split
          · exact ih (i + 1) answers
          · split
            · exact ih (i + 1) (processQuestions cfg answers (env i).sections).1
            · exact ih (i + 1) answers

theorem pqStep_iterStart (l : List Ev) :
    pqOnlyAfterErr (Ev.iterStart :: l) = pqOnlyAfterErr l := rfl

theorem pqStep_clickNext (l : List Ev) :
    pqOnlyAfterErr (Ev.clickNext :: l) = pqOnlyAfterErr l := rfl

theorem pqStep_submitFail (l : List Ev) :
    pqOnlyAfterErr (Ev.submitFail :: l) = pqOnlyAfterErr l := rfl

theorem pqStep_nextFail (l : List Ev) :
    pqOnlyAfterErr (Ev.nextFail :: l) = pqOnlyAfterErr l := rfl

theorem pqStep_clickReview (l : List Ev) :
    pqOnlyAfterErr (Ev.clickReview :: l) = pqOnlyAfterErr l := rfl

theorem pqStep_reviewFail (l : List Ev) :
    pqOnlyAfterErr (Ev.reviewFail :: l) = pqOnlyAfterErr l := rfl

theorem pqStep_upload (l : List Ev) :
    pqOnlyAfterErr (Ev.upload :: l) = pqOnlyAfterErr l := rfl

theorem pqStep_errPair (l : List Ev) :
    pqOnlyAfterErr (Ev.errorDetected :: Ev.processQuestions :: l) = pqOnlyAfterErr l := rfl

theorem pqOnlyAfterErr_failClick (st : StepPage) (l : List Ev) :
    pqOnlyAfterErr (failClickEvs st ++ l) = pqOnlyAfterErr l := by
  rcases st with ⟨sp, so, np, no, rp, ro, ru, cu, ep, secs⟩
  cases np <;> cases rp <;> cases ro <;>
    simp [failClickEvs, pqStep_nextFail, pqStep_clickReview, pqStep_reviewFail]

theorem submitGo_pqOnlyAfterErr (cfg : Config) (env : Nat → StepPage) :
    ∀ (fuel i : Nat) (answers : List (String × String)),
      pqOnlyAfterErr (submitGo cfg env answers i fuel).events = true := by
  intro fuel
  induction fuel with
  | zero => intro i answers; rfl
  | succ n ih =>
    intro i answers
    simp only [submitGo]
    split
    · split
      · rfl
      · simp only [List.cons_append, List.nil_append, pqStep_iterStart, pqStep_submitFail]
        exact ih (i + 1) answers
    · split
      · simp only [List.cons_append, List.nil_append, pqStep_iterStart, pqStep_clickNext]
        exact ih (i + 1) answers
      · split
        · simp only [List.cons_append, List.append_assoc, pqStep_iterStart,
            pqOnlyAfterErr_failClick]
          exact ih (i + 1) answers
        · split
          · simp only [List.cons_append, List.append_assoc, List.singleton_append,
              pqStep_iterStart, pqOnlyAfterErr_failClick, pqStep_upload]
            exact ih (i + 1) answers
          · split
            · simp only [List.cons_append, List.append_assoc, List.singleton_append,
                List.nil_append, pqStep_iterStart, pqOnlyAfterErr_failClick, pqStep_errPair]
              exact ih (i + 1) (processQuestions cfg answers (env i).sections).1
            · simp only [List.cons_append, List.append_assoc, pqStep_iterStart,
                pqOnlyAfterErr_failClick]
              exact ih (i + 1) answers

/-! ## Concrete values used by witnesses and counterexamples -/

/-- A configuration with the defaults of the module entry point. -/
def demoCfg : Config :=
  ⟨"5551234567", some "100000", some "per year", false, false, [], [], 10⟩

/-- A page state offering none of the recognized controls: the
pathological state of C3. -/
def stepAllAbsent : StepPage :=
  ⟨false, false, false, false, false, false, false, false, false, []⟩

/-- A page state offering only a working next control. -/
def stepNextOk : StepPage :=
  ⟨false, false, true, true, false, false, false, false, false, []⟩

/-- A timestamp used by concrete evaluations. -/
def demoDT : DT := ⟨2026, 10, 12, 9, 30, 0⟩

/-- A job page whose form shows a working next control on every step. -/
def demoEnvAllNext : ApplyEnv :=
  ⟨"Software Engineer | Acme Corp | LinkedIn", "https://www.linkedin.com/jobs/view/999",
    true, true, none, [], fun _ => stepNextOk⟩

/-- A job page with no Easy Apply control. -/
def demoEnvNoEasy : ApplyEnv :=
  ⟨"Software Engineer | Acme Corp | LinkedIn", "https://www.linkedin.com/jobs/view/77",
    false, false, none, [], fun _ => stepAllAbsent⟩

/-! ## Claim theorems -/

/-- C1: the History Store round trip fails on the code.  The claim says
that appending N ApplicationRecords to an initially absent output file
and then loading yields exactly those N records; here one record with a
timestamp inside the recency window (second conjunct) is appended, and
the load returns the empty list: `_record_application` writes a header
line and seven columns, while `_load_applied_jobs` reads the file with
`header=None` and six column names, so the timestamp parse raises and
the `except` clause discards the whole file. -/
theorem history_roundtrip_loses_records :
    loadAppliedJobs
      (some (appendRecord none (mkRecord "Software Engineer | Acme Corp | LinkedIn"
        "https://www.linkedin.com/jobs/view/3721492817" ⟨2026, 10, 12, 9, 30, 0⟩
        "3721492817" true "Applied")))
      ⟨2026, 10, 10, 9, 30, 0⟩ = [] ∧
    dtLt ⟨2026, 10, 10, 9, 30, 0⟩ ⟨2026, 10, 12, 9, 30, 0⟩ = true := by decide

/-- C2: every `apply_to_job` call records exactly one application
outcome before returning, whichever terminal branch is taken
(blacklisted title, no Easy Apply control, click failure, exception,
submission success, submission failure), and the recorded job id is the
input candidate id. -/
theorem applyToJob_exactly_one_record (cfg : Config) (env : ApplyEnv)
    (answers : List (String × String)) (ts : DT) (jobId : String) :
    (applyToJob cfg env answers ts jobId).records.map (fun r => r.jobId) = [jobId] := by
  simp only [applyToJob]
  repeat' split
  all_goals simp [mkRecord]

/-- C3: the `_submit_application` loop runs at most `max_attempts = 5`
iterations for every sequence of page states, and when no submit click
ever succeeds it returns the failure outcome instead of looping. -/
theorem submit_loop_bounded_and_exhausts (cfg : Config) (env : Nat → StepPage)
    (answers : List (String × String)) :
    iterCount (submitApplication cfg env answers).events ≤ maxAttempts ∧
    ((∀ j, ¬((env j).submitPresent = true ∧ (env j).submitClickOk = true)) →
      (submitApplication cfg env answers).success = false) :=
  ⟨submitGo_iterCount cfg env maxAttempts 0 answers,
    fun h => submitGo_success_false cfg env h maxAttempts 0 answers⟩

/-- C3 witness: the pathological page that never offers any control. -/
theorem submit_loop_bounded_and_exhausts_witness :
    iterCount (submitApplication demoCfg (fun _ => stepAllAbsent) []).events ≤ maxAttempts ∧
    (submitApplication demoCfg (fun _ => stepAllAbsent) []).success = false := by
  have h := submit_loop_bounded_and_exhausts demoCfg (fun _ => stepAllAbsent) []
  exact ⟨h.1, h.2 (fun j => by simp [stepAllAbsent])⟩

/-- C4 counterexample: on a form whose every step offers a next control,
the full event trace of `apply_to_job` fills the form fields exactly
once, before the loop, and every later next click happens with no field
filling inside its own iteration, so the per-iteration
fill-before-click property is false. -/
theorem form_fill_not_per_iteration :
    (applyToJob demoCfg demoEnvAllNext [] demoDT "999").events =
      [Ev.processQuestions, Ev.iterStart, Ev.clickNext, Ev.iterStart, Ev.clickNext,
       Ev.iterStart, Ev.clickNext, Ev.iterStart, Ev.clickNext, Ev.iterStart, Ev.clickNext] ∧
    fillBeforeNext (applyToJob demoCfg demoEnvAllNext [] demoDT "999").events false = false := by
  decide

/-- C4 amended: once the form phase is reached, the driver fills the
fields exactly once before the iteration loop starts (phone sections,
then one question-processing pass), a next control inside the loop is
clicked without re-filling, question processing reruns inside the loop
only immediately after a validation error is detected, and the answer
entry for a resolved question tries radio value equality, then free
text, then the multi-entry component, in that priority order. -/
theorem form_fill_once_before_loop (cfg : Config) (env : ApplyEnv)
    (answers : List (String × String)) (ts : DT) (jobId : String)
    (hbl : titleBlacklisted cfg env.pageTitle = false)
    (hea : env.easyApplyPresent = true) (hok : env.easyApplyClickOk = true)
    (hexc : env.formExc = none) :
    (applyToJob cfg env answers ts jobId).events =
      ((env.sections.filter (fun s => containsSub s.text "Mobile phone number")).map
        (fun _ => Ev.fillPhone)) ++ [Ev.processQuestions] ++
        (submitApplication cfg env.steps (processQuestions cfg answers env.sections).1).events ∧
    pqOnlyAfterErr
      (submitApplication cfg env.steps (processQuestions cfg answers env.sections).1).events
      = true ∧
    (∀ (sec : Section) (a : String),
      (a ∈ sec.radioValues → answerField sec a = some (FieldAct.radio a)) ∧
      (a ∉ sec.radioValues → sec.hasTextInput = true →
        answerField sec a = some (FieldAct.typeText a)) ∧
      (a ∉ sec.radioValues → sec.hasTextInput = false → sec.hasMulti = true →
        answerField sec a = some (FieldAct.multi a))) := by
  refine ⟨?_, submitGo_pqOnlyAfterErr cfg env.steps maxAttempts 0 _, ?_⟩
  · simp only [applyToJob]
    rw [hbl, hea, hok, hexc]
    simp only [Bool.not_true, Bool.false_eq_true, if_false, fillForm]
    split <;> simp [submitApplication]
  · intro sec a
    refine ⟨fun h1 => ?_, fun h1 h2 => ?_, fun h1 h2 h3 => ?_⟩ <;> simp [answerField, *]

/-- C4 amended witness: the trace shape at a concrete form. -/
theorem form_fill_once_before_loop_witness :
    (applyToJob demoCfg demoEnvAllNext [] demoDT "999").events =
      ((demoEnvAllNext.sections.filter (fun s => containsSub s.text "Mobile phone number")).map
        (fun _ => Ev.fillPhone)) ++ [Ev.processQuestions] ++
        (submitApplication demoCfg demoEnvAllNext.steps
          (processQuestions demoCfg [] demoEnvAllNext.sections).1).events ∧
    pqOnlyAfterErr
      (submitApplication demoCfg demoEnvAllNext.steps
        (processQuestions demoCfg [] demoEnvAllNext.sections).1).events = true := by
  have h := form_fill_once_before_loop demoCfg demoEnvAllNext [] demoDT "999"
    (by decide) rfl rfl rfl
  exact ⟨h.1, h.2.1⟩

/-! ## Session cap lemmas -/

theorem applyLoop_stop (maxApps : Nat) (outcome : String → Bool)
    (jobs : List (String × String)) (s : SessState) (h : maxApps ≤ s.count) :
    applyLoop maxApps outcome jobs s = (s, []) := by
  cases jobs with
  | nil => rfl
  | cons j rest =>
    obtain ⟨jobId, txt⟩ := j
    simp [applyLoop, h]

theorem applyLoop_count_le (maxApps : Nat) (outcome : String → Bool) :
    ∀ (jobs : List (String × String)) (s : SessState), s.count ≤ maxApps →
      ((applyLoop maxApps outcome jobs s).1).count ≤ maxApps := by
  intro jobs
  induction jobs with
  | nil => intro s h; exact h
  | cons j rest ih =>
    intro s h
    obtain ⟨jobId, txt⟩ := j
    simp only [applyLoop]
    split
    · exact h
    · split
      · exact ih s h
      · rename_i hcap hmem
        split
        · apply ih
          show s.count + 1 ≤ maxApps
          omega
        · exact ih s h

theorem runBatches_stop (maxApps : Nat) (outcome : String → Bool)
    (batches : List (List (String × String))) (s : SessState) (h : maxApps ≤ s.count) :
    runBatches maxApps outcome batches s = (s, []) := by
  cases batches with
  | nil => rfl
  | cons b rest => simp [runBatches, h]

theorem runBatches_count_le (maxApps : Nat) (outcome : String → Bool) :
    ∀ (batches : List (List (String × String))) (s : SessState), s.count ≤ maxApps →
      ((runBatches maxApps outcome batches s).1).count ≤ maxApps := by
  intro batches
  induction batches with
  | nil => intro s h; exact h
  | cons b rest ih =>
    intro s h
    simp only [runBatches]
    split
    · exact h
    · exact ih _ (applyLoop_count_le maxApps outcome b s h)

/-- C5: the session counter never exceeds the configured maximum at any
observation point (the state `s` ranges over every reachable state), and
once the counter equals the maximum neither the remaining batches of the
run nor the remaining jobs of the current listing page issue any further
`apply_to_job` attempt. -/
theorem session_cap_invariant (maxApps : Nat) (outcome : String → Bool)
    (batches : List (List (String × String))) (jobs : List (String × String)) (s : SessState)
    (h : s.count ≤ maxApps) :
    ((runBatches maxApps outcome batches s).1).count ≤ maxApps ∧
    (s.count = maxApps → (runBatches maxApps outcome batches s).2 = []) ∧
    (s.count = maxApps → (applyLoop maxApps outcome jobs s).2 = []) := by
  refine ⟨runBatches_count_le maxApps outcome batches s h, fun he => ?_, fun he => ?_⟩
  · rw [runBatches_stop maxApps outcome batches s (le_of_eq he.symm)]
  · rw [applyLoop_stop maxApps outcome jobs s (le_of_eq he.symm)]

/-- C5 witness: a session already at its cap of 2 issues no attempt. -/
theorem session_cap_invariant_witness :
    ((runBatches 2 (fun _ => true) [[("a", "t"), ("b", "t"), ("c", "t")]] ⟨2, []⟩).1).count ≤ 2 ∧
    ((2 : Nat) = 2 →
      (runBatches 2 (fun _ => true) [[("a", "t"), ("b", "t"), ("c", "t")]] ⟨2, []⟩).2 = []) ∧
    ((2 : Nat) = 2 → (applyLoop 2 (fun _ => true) [("d", "t")] ⟨2, []⟩).2 = []) :=
  session_cap_invariant 2 (fun _ => true) [[("a", "t"), ("b", "t"), ("c", "t")]]
    [("d", "t")] ⟨2, []⟩ (by decide)

/-- C6: the claim fails on the code.  A job applied to two hours after
the cutoff (so well inside the 2-day recency window) is recorded by
`_record_application`; at the next startup `_load_applied_jobs` returns
the empty set because it cannot parse the file its own writer produced,
so the candidate passes the dedup filter and enters `apply_to_job`
again, where the claim requires it to be rejected. -/
theorem recent_application_reattempted :
    loadAppliedJobs
      (some (appendRecord none (mkRecord "Data Scientist | Initech | LinkedIn"
        "https://www.linkedin.com/jobs/view/8675309" ⟨2026, 10, 12, 8, 0, 0⟩
        "8675309" true "Applied")))
      ⟨2026, 10, 10, 8, 0, 0⟩ = [] ∧
    (applyLoop 10 (fun _ => false) [("8675309", "snippet")]
      ⟨0, loadAppliedJobs
        (some (appendRecord none (mkRecord "Data Scientist | Initech | LinkedIn"
          "https://www.linkedin.com/jobs/view/8675309" ⟨2026, 10, 12, 8, 0, 0⟩
          "8675309" true "Applied")))
        ⟨2026, 10, 10, 8, 0, 0⟩⟩).2 = ["8675309"] := by decide

theorem firstStored_first_match (q : String) :
    ∀ (pre post : List (String × String)) (p : String × String),
      (∀ r ∈ pre, containsSub q (lowerStr r.1) = false) →
      containsSub q (lowerStr p.1) = true →
      firstStored (pre ++ p :: post) q = some p.2 := by
  intro pre
  induction pre with
  | nil =>
    intro post p hpre hm
    obtain ⟨k, v⟩ := p
    simp [firstStored, hm]
  | cons r rest ih =>
    intro post p hpre hm
    obtain ⟨k, v⟩ := r
    have hk : containsSub q (lowerStr k) = false := hpre (k, v) (by simp)
    simp only [List.cons_append, firstStored, hk]
    simp only [Bool.false_eq_true, if_false]
    exact ih post p (fun r hr => hpre r (by simp [hr])) hm

/-- C7: the stored-answer scan wins over the heuristic table and returns
the answer of the first stored record whose lowercased question text is
a substring of the (lowercased) live question; all records before it in
insertion order do not match. -/
theorem stored_answer_first_match (cfg : Config) (pre post : List (String × String))
    (p : String × String) (q : String)
    (hpre : ∀ r ∈ pre, containsSub q (lowerStr r.1) = false)
    (hm : containsSub q (lowerStr p.1) = true) :
    (getAnswer cfg (pre ++ p :: post) q).1 = some p.2 := by
  have h := firstStored_first_match q pre post p hpre hm
  simp [getAnswer, h]

/-- C7 witness: the specification example.  The stored record wins even
though the heuristic table would answer `3` for the same question. -/
theorem stored_answer_first_match_witness :
    (getAnswer demoCfg [("years of experience", "5")]
      (lowerStr "How many years of experience do you have with Python?")).1 = some "5" ∧
    heuristic demoCfg (lowerStr "How many years of experience do you have with Python?") =
      some "3" := by
  constructor
  · exact stored_answer_first_match demoCfg [] [] ("years of experience", "5")
      (lowerStr "How many years of experience do you have with Python?")
      (by simp) (by decide)
  · decide

/-- C8: a question matched neither by the stored records nor by any
heuristic rule resolves to `None`, appends exactly one new record for
that question to the store and to `qa.csv`, and the section walk
continues with no input entered for that section instead of raising. -/
theorem unresolved_question_appended_once (cfg : Config)
    (answers : List (String × String)) (sec : Section) (rest : List Section)
    (hstored : firstStored answers (lowerStr sec.text) = none)
    (hheur : heuristic cfg (lowerStr sec.text) = none) :
    getAnswer cfg answers (lowerStr sec.text) =
      (none, dictInsert answers (lowerStr sec.text) "Yes", [(lowerStr sec.text, "Yes")]) ∧
    processQuestions cfg answers (sec :: rest) =
      ((processQuestions cfg (dictInsert answers (lowerStr sec.text) "Yes") rest).1,
        (lowerStr sec.text, "Yes") ::
          (processQuestions cfg (dictInsert answers (lowerStr sec.text) "Yes") rest).2.1,
        (sec, none) ::
          (processQuestions cfg (dictInsert answers (lowerStr sec.text) "Yes") rest).2.2) := by
  have hg : getAnswer cfg answers (lowerStr sec.text) =
      (none, dictInsert answers (lowerStr sec.text) "Yes", [(lowerStr sec.text, "Yes")]) := by
    simp [getAnswer, hstored, hheur]
  refine ⟨hg, ?_⟩
  simp only [processQuestions, hg]
  simp

/-- C8 witness: the unresolved-question example of the specification. -/
theorem unresolved_question_appended_once_witness :
    getAnswer demoCfg [] (lowerStr "What is your favorite IDE?") =
      (none, dictInsert [] (lowerStr "What is your favorite IDE?") "Yes",
        [(lowerStr "What is your favorite IDE?", "Yes")]) ∧
    processQuestions demoCfg [] [⟨"What is your favorite IDE?", [], true, false⟩] =
      ((processQuestions demoCfg
          (dictInsert [] (lowerStr "What is your favorite IDE?") "Yes") []).1,
        (lowerStr "What is your favorite IDE?", "Yes") ::
          (processQuestions demoCfg
            (dictInsert [] (lowerStr "What is your favorite IDE?") "Yes") []).2.1,
        (⟨"What is your favorite IDE?", [], true, false⟩, none) ::
          (processQuestions demoCfg
            (dictInsert [] (lowerStr "What is your favorite IDE?") "Yes") []).2.2) :=
  unresolved_question_appended_once demoCfg [] ⟨"What is your favorite IDE?", [], true, false⟩ []
    (by decide) (by decide)

theorem firstStored_dictInsert (q t : String) :
    ∀ (answers : List (String × String)),
      containsSub t (lowerStr q) = true →
      firstStored answers t = none →
      firstStored (dictInsert answers q "Yes") t = some "Yes" := by
  intro answers
  induction answers with
  | nil => intro hm hn; simp [dictInsert, firstStored, hm]
  | cons r rest ih =>
    intro hm hn
    obtain ⟨k, v⟩ := r
    cases hc : containsSub t (lowerStr k) with
    | true => simp [firstStored, hc] at hn
    | false =>
      simp only [firstStored, hc, Bool.false_eq_true, if_false] at hn
      by_cases hkq : k = q
      · simp [dictInsert, hkq, firstStored, hm]
      · simp only [dictInsert, hkq, if_false, firstStored, hc, Bool.false_eq_true]
        exact ih hm hn

/-- C9: the placeholder for an unresolved question is the fixed string
`Yes`: the current resolution still returns `None`, the question is
stored with answer `Yes` in the in-memory store and appended to the
knowledge file, and any later question containing that text (matched by
no earlier stored record) silently resolves to `Yes`. -/
theorem placeholder_answer_is_yes (cfg : Config) (answers : List (String × String)) (q t : String)
    (hstored : firstStored answers q = none)
    (hheur : heuristic cfg q = none)
    (hm : containsSub t (lowerStr q) = true)
    (hlater : firstStored answers t = none) :
    (getAnswer cfg answers q).1 = none ∧
    (getAnswer cfg answers q).2.1 = dictInsert answers q "Yes" ∧
    (getAnswer cfg answers q).2.2 = [(q, "Yes")] ∧
    (getAnswer cfg (dictInsert answers q "Yes") t).1 = some "Yes" := by
  have hg : getAnswer cfg answers q = (none, dictInsert answers q "Yes", [(q, "Yes")]) := by
    simp [getAnswer, hstored, hheur]
  have h2 := firstStored_dictInsert q t answers hm hlater
  exact ⟨by rw [hg], by rw [hg], by rw [hg], by simp [getAnswer, h2]⟩

/-- C9 witness: the same question asked again in a later session is
silently answered `Yes`. -/
theorem placeholder_answer_is_yes_witness :
    (getAnswer demoCfg [] "what is your favorite ide?").1 = none ∧
    (getAnswer demoCfg [] "what is your favorite ide?").2.1 =
      dictInsert [] "what is your favorite ide?" "Yes" ∧
    (getAnswer demoCfg [] "what is your favorite ide?").2.2 =
      [("what is your favorite ide?", "Yes")] ∧
    (getAnswer demoCfg (dictInsert [] "what is your favorite ide?" "Yes")
      "what is your favorite ide?").1 = some "Yes" :=
  placeholder_answer_is_yes demoCfg [] "what is your favorite ide?" "what is your favorite ide?"
    (by decide) (by decide) (by decide) (by decide)

/-- C10: `apply_to_job` returns `True` exactly when the recorded outcome
is `Applied` (a submitted application), and an attempt that fails
neither bumps the session counter nor adds the job id to the dedup
list, so the same job entering the loop again later in the session is
attempted again. -/
theorem failed_attempt_consumes_nothing (cfg : Config) (env : ApplyEnv)
    (answers : List (String × String)) (ts : DT) (jobId : String)
    (maxApps : Nat) (outcome : String → Bool) (j txt : String)
    (rest : List (String × String)) (s : SessState)
    (hfail : outcome j = false) (hcap : s.count < maxApps) (hnew : j ∉ s.appliedIds) :
    ((applyToJob cfg env answers ts jobId).success = true ↔
      (applyToJob cfg env answers ts jobId).records.map (fun r => r.result) = ["Applied"]) ∧
    (applyLoop maxApps outcome ((j, txt) :: rest) s).1 = (applyLoop maxApps outcome rest s).1 ∧
    (applyLoop maxApps outcome ((j, txt) :: rest) s).2 =
      j :: (applyLoop maxApps outcome rest s).2 := by
  have hcap2 : ¬ maxApps ≤ s.count := by omega
  refine ⟨?_, ?_, ?_⟩
  · simp only [applyToJob]
    repeat' split
    all_goals simp [mkRecord]
    intro h
    have hd := congrArg String.data h
    simp [String.data_append] at hd
  · simp [applyLoop, hcap2, hnew, hfail]
  · simp [applyLoop, hcap2, hnew, hfail]

/-- C10 witness: a failing job attempted twice in one session; the
state after the first failure is unchanged. -/
theorem failed_attempt_consumes_nothing_witness :
    ((applyToJob demoCfg demoEnvNoEasy [] demoDT "77").success = true ↔
      (applyToJob demoCfg demoEnvNoEasy [] demoDT "77").records.map (fun r => r.result) =
        ["Applied"]) ∧
    (applyLoop 5 (fun _ => false) [("j1", "t"), ("j1", "t")] ⟨0, []⟩).1 =
      (applyLoop 5 (fun _ => false) [("j1", "t")] ⟨0, []⟩).1 ∧
    (applyLoop 5 (fun _ => false) [("j1", "t"), ("j1", "t")] ⟨0, []⟩).2 =
      "j1" :: (applyLoop 5 (fun _ => false) [("j1", "t")] ⟨0, []⟩).2 :=
  failed_attempt_consumes_nothing demoCfg demoEnvNoEasy [] demoDT "77" 5 (fun _ => false)
    "j1" "t" [("j1", "t")] ⟨0, []⟩ rfl (by decide) (by decide)

end LinkedInBot
